import Mathlib

/-!
Verification of the `openwdl/wdl-tests` helper scripts.

This file gives a shallow embedding, in Lean 4, of the pure decision logic of
the repository's Python scripts:

* `scripts/extract_tests.py`   — the extraction pipeline (scanner, filename
  grammar, test-case builder, fail-fast batch loop);
* `scripts/run_tests_miniwdl.py`, `run_tests_cromwell.py`,
  `run_tests_sprocket.py`, `run_tests_toil.py` — the per-case verdict
  computation (`check` and `run_test`) and the output normalization helpers
  (`get_filename_if_path`, `normalize_paths`).

Modelling conventions:

* JSON values are modelled by the inductive `JVal`; JSON numbers are modelled
  as integers (no claim involves floating point).  Python `==` on JSON values
  is modelled by `pyEq`, including Python's `bool == int` cross-equality and
  its key-based (order-insensitive) dictionary equality.
* JSON objects / Python dicts are association lists with unique keys
  (`JObj`); `JObj.get` / `JObj.set` model `d[k]` read and write (replace in
  place, preserving insertion order).
* The filesystem is a parameter: an `exists` predicate `String → Bool`
  (the scripts only ever call `Path(...).exists()` on output values) and, in
  the extraction model, the list of file names already present in the output
  directory.
* Calls to `json.loads` on the optional example sections are abstracted to
  already-parsed values (`Option JVal` / `Option JObj`, `none` meaning the
  section is absent or blank); no claim concerns JSON text parsing itself.
* `TEST_RE` (the monolithic example-block regex) is passed to the extraction
  loop as a `matcher` parameter returning the captured groups; the claims
  about the extraction loop quantify over its behaviour.  `FILENAME_RE` and
  `VERSION_RE` are modelled exactly, including Python's lazy/greedy
  backtracking order and the unescaped `.` of `FILENAME_RE`.
* Subprocess execution, printing and file writing are I/O and are not
  modelled; the verdict functions take the executor's return code and parsed
  output as arguments, and `write_test_files` returns the name of the file it
  would write together with the registry record it appends.
-/

/-- JSON values.  Numbers are modelled as integers. -/
inductive JVal where
  | null : JVal
  | bool : Bool → JVal
  | num : Int → JVal
  | str : String → JVal
  | arr : List JVal → JVal
  | obj : List (String × JVal) → JVal

/-- A JSON object / Python dict, as an insertion-ordered association list. -/
abbrev JObj := List (String × JVal)

/-- Dict read: `d.get(k)` / `d[k]` (first matching key). -/
def JObj.get : JObj → String → Option JVal
  | [], _ => none
  | (k', v) :: rest, k => if k' == k then some v else JObj.get rest k

/-- Dict write `d[k] = v`: replace the first binding of `k` in place,
otherwise append (Python dicts preserve insertion order). -/
def JObj.set : JObj → String → JVal → JObj
  | [], k, v => [(k, v)]
  | (k', v') :: rest, k, v =>
    if k' == k then (k, v) :: rest else (k', v') :: JObj.set rest k v

/-- Dict membership test: `k in d`. -/
def JObj.hasKey (d : JObj) (k : String) : Bool :=
  (JObj.get d k).isSome

/-- Whether a JSON value is a string (`isinstance(v, str)`). -/
def JVal.isStr : JVal → Bool
  | .str _ => true
  | _ => false

/-- Whether a JSON value is a list. -/
def JVal.isArr : JVal → Bool
  | .arr _ => true
  | _ => false

mutual
/-- Python `==` on JSON values: structural on scalars and lists, with
Python's `bool`/`int` cross-equality, and key-based equality on dicts. -/
def pyEq : JVal → JVal → Bool
  | JVal.null, JVal.null => true
  | JVal.bool a, JVal.bool b => a == b
  | JVal.bool a, JVal.num n => (if a then (1 : Int) else 0) == n
  | JVal.num n, JVal.bool b => n == (if b then (1 : Int) else 0)
  | JVal.num a, JVal.num b => a == b
  | JVal.str a, JVal.str b => a == b
  | JVal.arr a, JVal.arr b => pyEqList a b
  | JVal.obj a, JVal.obj b => a.length == b.length && pyEqFields a b
  | _, _ => false

/-- Element-wise Python equality of two JSON lists. -/
def pyEqList : List JVal → List JVal → Bool
  | [], [] => true
  | a :: as, b :: bs => pyEq a b && pyEqList as bs
  | _, _ => false

/-- Every binding of the first dict is present, with a `pyEq`-equal value,
in the second dict. -/
def pyEqFields : List (String × JVal) → List (String × JVal) → Bool
  | [], _ => true
  | (k, v) :: rest, b =>
    (match JObj.get b k with
     | some w => pyEq v w
     | none => false) && pyEqFields rest b
end

/-- Split a character list at every `'/'` (model of the component split
performed by `pathlib`). -/
def splitSlash : List Char → List (List Char)
  | [] => [[]]
  | c :: cs =>
    if c = '/' then [] :: splitSlash cs
    else
      match splitSlash cs with
      | [] => [[c]]
      | a :: as => (c :: a) :: as

/-- `pathlib.PurePosixPath(s).name` on the character list of `s`: the last
component after splitting on `'/'`, where empty components and `"."`
components are dropped by the parser; `[]` (the empty name) if none remain. -/
def pathNameL (cs : List Char) : List Char :=
  ((splitSlash cs).filter (fun a => a != ([] : List Char) && a != ['.'])).getLast?.getD []

/-- `pathlib.Path(s).name`. -/
def pathName (s : String) : String :=
  ⟨pathNameL s.data⟩

/-- `get_filename_if_path` from `run_tests_miniwdl.py` (also defined verbatim
in `run_tests_cromwell.py` and `run_tests_sprocket.py`): a string value that
is an existing path is replaced by its final path component; every other
value is returned unchanged.  The filesystem is the `fs` parameter
(`Path(val).exists()`). -/
def get_filename_if_path (fs : String → Bool) : JVal → JVal
  | .str s => if fs s then .str (pathName s) else .str s
  | v => v

/-- The per-value body of `normalize_paths` from `run_tests_toil.py`:
`Path(v).name` for a string value, identity otherwise. -/
def normalizeVal : JVal → JVal
  | JVal.str s => JVal.str (pathName s)
  | v => v

/-- `normalize_paths` from `run_tests_toil.py`: every string value of the
dict is replaced by its final path component (unconditionally); non-string
values are kept. -/
def normalize_paths (d : List (String × JVal)) : List (String × JVal) :=
  d.map (fun kv => (kv.1, normalizeVal kv.2))

/-- The verdict enum `Result` shared by all four runner scripts. -/
inductive Result where
  | PASS : Result
  | WARN : Result
  | FAIL : Result
  | INVALID : Result
  | IGNORE : Result
deriving DecidableEq, Repr

/-- The fields of a registry record (one element of `test_config.json`) that
the `check` / `run_test` verdict computations read.  Fields that only feed
the spawned command line or log messages (`id`, `path`, `type`, `target`,
`input`) are omitted: they do not influence the verdict. -/
structure RunConfig where
  priority : String
  fail : Bool
  returnCodes : JVal
  exclude_output : List String
  output : JObj
  tags : List String

/-- `check` from `run_tests_miniwdl.py` (lines 41-61), given the check
tool's return code `rc`.  The `strict` flag only alters the spawned command
line. -/
def checkMiniwdl (cfg : RunConfig) (strict no_warn deprecated_optional : Bool)
    (rc : Int) : Result :=
  let _ := strict
  if rc == 0 then .PASS
  else if cfg.priority == "ignore" then .IGNORE
  else if cfg.fail && no_warn then .WARN
  else if deprecated_optional && cfg.tags.contains "deprecated" then .WARN
  else if cfg.fail then .WARN else .FAIL

/-- `check` from `run_tests_sprocket.py` (lines 33-60).  Line 41 builds the
command list with `str(input_path)`, but `input_path` is not defined in the
function's scope — it is a local of `run_test`, and no module global exists —
so the function unconditionally raises `NameError` while constructing the
command, before the tool is invoked and before any verdict is computed.  It
never returns a `Result`; its decision tree (lines 45-60, textually
identical to the miniwdl one) is unreachable and therefore not modelled. -/
def checkSprocket (cfg : RunConfig) (strict no_warn deprecated_optional : Bool) :
    Except String Result :=
  let _ := (cfg, strict, no_warn, deprecated_optional)
  Except.error "NameError: name input_path is not defined"

/-- Output comparison of `run_test` in `run_tests_miniwdl.py` (lines
118-157): `parsed` is `json.loads(p.output).get("outputs", {})`, with `none`
standing for a `JSONDecodeError`.  Keys in `exclude_output` are skipped;
a produced key absent from the expected outputs is a mismatch; otherwise the
normalized values are compared with Python `==`. -/
def runTestMiniwdlOutputs (fs : String → Bool) (cfg : RunConfig)
    (parsed : Option JObj) : Result :=
  match parsed with
  | none => .FAIL
  | some outputs =>
    let invalid := outputs.foldl
      (fun acc kv =>
        if cfg.exclude_output.contains kv.1 then acc
        else
          match JObj.get cfg.output kv.1 with
          | none => acc ++ [(kv.1, kv.2, JVal.null)]
          | some expected =>
            if pyEq (get_filename_if_path fs kv.2)
                (get_filename_if_path fs expected) then acc
            else acc ++ [(kv.1, kv.2, expected)]) []
    if invalid.isEmpty then .PASS else .FAIL

/-- `run_test` from `run_tests_miniwdl.py` (lines 64-157), given the
executor's return code and parsed output. -/
def runTestMiniwdl (fs : String → Bool) (cfg : RunConfig) (rc : Int)
    (parsed : Option JObj) : Result :=
  if cfg.priority == "ignore" then .IGNORE
  else
    let expected_to_fail := cfg.fail
    let actual_failed := rc != 0
    if expected_to_fail then
      if actual_failed then .PASS else .FAIL
    else
      if pyEq cfg.returnCodes (JVal.str "*") then
        runTestMiniwdlOutputs fs cfg parsed
      else if !(pyEq (JVal.num rc) cfg.returnCodes) then .FAIL
      else if actual_failed then .FAIL
      else runTestMiniwdlOutputs fs cfg parsed

/-- `run_test` from `run_tests_cromwell.py` (lines 60-150), given the
executor's return code and the outputs collected from the metadata file
(`none` when `load_cromwell_outputs` raises).  Note that, unlike the miniwdl
runner, it iterates over the expected outputs (missing produced keys read as
`None`) and does not consult `exclude_output`. -/
def runTestCromwell (fs : String → Bool) (cfg : RunConfig) (rc : Int)
    (outputs : Option JObj) : Result :=
  if cfg.priority == "ignore" then .IGNORE
  else
    let expected_to_fail := cfg.fail
    let actual_failed := rc != 0
    if expected_to_fail then
      if actual_failed then .PASS else .FAIL
    else if !(pyEq cfg.returnCodes (JVal.str "*"))
        && !(pyEq (JVal.num rc) cfg.returnCodes) then .FAIL
    else if actual_failed then .FAIL
    else
      match outputs with
      | none => .FAIL
      | some outs =>
        let invalid := cfg.output.foldl
          (fun acc ke =>
            let actual := (JObj.get outs ke.1).getD JVal.null
            let vn := get_filename_if_path fs actual
            let en := get_filename_if_path fs ke.2
            if pyEq vn en then acc else acc ++ [(ke.1, vn, en)]) []
        if invalid.isEmpty then .PASS else .FAIL

/-- Python's `str.strip()` with no argument: remove leading and trailing
whitespace. -/
def pyStrip (s : String) : String :=
  ⟨((s.data.dropWhile Char.isWhitespace).reverse.dropWhile Char.isWhitespace).reverse⟩

/-- The trailing part of `FILENAME_RE` — the regex fragment
`(_fail)?(_task)?.wdl` tried at a fixed end of group 1, in Python's
backtracking order (each optional group prefers to consume).  The final `.`
of the pattern is unescaped, so it matches any character other than a
newline, and the match is a prefix match (anything may follow `wdl`).
Returns the captured optional groups on success. -/
def filenameTailMatch (rest : List Char) : Option (Bool × Bool) :=
  let dotWdl : List Char → Bool := fun r =>
    match r with
    | c :: r' => c != '\n' && "wdl".data.isPrefixOf r'
    | [] => false
  let failCands :=
    if "_fail".data.isPrefixOf rest then
      [(true, rest.drop 5), (false, rest)]
    else [(false, rest)]
  let cands := failCands.flatMap (fun fr =>
    let taskCands :=
      if "_task".data.isPrefixOf fr.2 then
        [(true, fr.2.drop 5), (false, fr.2)]
      else [(false, fr.2)]
    taskCands.map (fun tr => (fr.1, tr.1, tr.2)))
  (cands.find? (fun c => dotWdl c.2.2)).map (fun c => (c.1, c.2.1))

/-- Worker for `filenameMatch`: group 1 (`(.+?)`) is lazy, so its candidate
lengths are tried in ascending order; its `.` does not match a newline. -/
def filenameMatchGo : List Char → List Char → Option (String × Bool × Bool)
  | _, [] => none
  | pre, c :: rest =>
    if c = '\n' then none
    else
      match filenameTailMatch rest with
      | some ft => some (⟨pre ++ [c]⟩, ft.1, ft.2)
      | none => filenameMatchGo (pre ++ [c]) rest

/-- `FILENAME_RE.match(file_name)` for
`FILENAME_RE = re.compile(r"(.+?)(_fail)?(_task)?.wdl")`: on success,
the captured target name and whether the `_fail` / `_task` groups matched. -/
def filenameMatch (s : String) : Option (String × Bool × Bool) :=
  filenameMatchGo [] s.data

/-- A character the version capture group `([\d.]+)` accepts. -/
def isVerChar (c : Char) : Bool :=
  c.isDigit || c == '.'

/-- Worker for `versionSearch`: try the pattern at each position, left to
right, as `re.search` does. -/
def versionSearchGo : List Char → Option String
  | [] => none
  | c :: rest =>
    let here := c :: rest
    if "version ".data.isPrefixOf here then
      match here.drop 8 with
      | d :: ds =>
        if isVerChar d then some ⟨d :: ds.takeWhile isVerChar⟩
        else versionSearchGo rest
      | [] => versionSearchGo rest
    else versionSearchGo rest

/-- `VERSION_RE.search(wdl)` for `VERSION_RE = re.compile(r"version ([\d.]+)")`:
the first captured version token, if any. -/
def versionSearch (s : String) : Option String :=
  versionSearchGo s.data

/-- The captured groups of a `TEST_RE` match, i.e. the five components of
one example block.  The three optional JSON sections are carried as parsed
values (`none` = section absent, or — for input/output — blank after
stripping); JSON text parsing itself is not modelled. -/
structure ExampleGroups where
  file_name : Option String
  wdl : String
  input_json : Option JVal
  output_json : Option JVal
  config_json : Option JObj

/-- `if key not in d: d[key] = v` — set a default without overriding an
explicit value. -/
def setDefault (d : JObj) (k : String) (v : JVal) : JObj :=
  if JObj.hasKey d k then d else JObj.set d k v

/-- The scalar-promotion idiom of `write_test_files`:
`if key not in d: d[key] = dflt; elif isinstance(d[key], str): d[key] = [d[key]]`.
Values that are present and not strings are left unchanged. -/
def promoteStr (d : JObj) (k : String) (dflt : JVal) : JObj :=
  if !JObj.hasKey d k then JObj.set d k dflt
  else
    match JObj.get d k with
    | some (JVal.str s) => JObj.set d k (JVal.arr [JVal.str s])
    | _ => d

/-- Lines 42-88 of `extract_tests.py`: build the registry record for one
example from its parsed test-config section `cfg0`, the target name and
markers captured by `FILENAME_RE`, the path of the written WDL file, and the
parsed input/output sections. -/
def buildEntry (cfg0 : JObj) (target : String) (is_fail is_task : Bool)
    (path : String) (inp outp : Option JVal) : JObj :=
  let e := JObj.set cfg0 "id" (JVal.str target)
  let e := JObj.set e "path" (JVal.str path)
  let e := setDefault e "type" (JVal.str (if is_task then "task" else "workflow"))
  let e := setDefault e "target" (JVal.str target)
  let e := setDefault e "priority" (JVal.str "required")
  let e := setDefault e "fail" (JVal.bool is_fail)
  let e := promoteStr e "exclude_output" (JVal.arr [])
  let e := promoteStr e "returnCodes" (JVal.str "*")
  let e := promoteStr e "dependencies" (JVal.arr [])
  let e := promoteStr e "tags" (JVal.arr [])
  let e := JObj.set e "input" (inp.getD (JVal.obj []))
  let e := JObj.set e "output" (outp.getD (JVal.obj []))
  e

/-- `write_test_files` from `extract_tests.py` (lines 18-88), with file
system effects made explicit: `existing` is the list of file names already
present in the output directory (pre-existing or written earlier in the same
run, keyed by name since the directory is fixed).  On success it returns the
name of the WDL file it writes and the registry record it appends. -/
def write_test_files (g : ExampleGroups) (version output_dir : String)
    (existing : List String) : Except String (String × JObj) :=
  match g.file_name with
  | none => Except.error "Missing file name"
  | some file_name =>
    match filenameMatch file_name with
    | none => Except.error ("Invalid file name: " ++ file_name)
    | some (target, is_fail, is_task) =>
      let wdl := pyStrip g.wdl
      match versionSearch wdl with
      | none => Except.error "WDL does not contain version statement"
      | some v =>
        if v != version then Except.error ("Invalid WDL version " ++ wdl)
        else
          let wdl_file := output_dir ++ "/" ++ file_name
          if existing.contains file_name then
            Except.error ("Test file already exists: " ++ wdl_file)
          else
            Except.ok (file_name,
              buildEntry (g.config_json.getD []) target is_fail is_task
                wdl_file g.input_json g.output_json)

/-- Substring containment on character lists (Python's `pat in line`). -/
def infixAt : List Char → List Char → Bool
  | [], pat => pat.isEmpty
  | c :: rest, pat => pat.isPrefixOf (c :: rest) || infixAt rest pat

/-- Python's `pat in line` on strings. -/
def containsSub (line pat : String) : Bool :=
  infixAt line.data pat.data

/-- Processing of one closed example block by the loop body of
`extract_tests` (lines 104-115): match `TEST_RE` (the `matcher` parameter)
against the joined block text, then run `write_test_files`; each failure is
batch-fatal.  The state is the pair (files present in the output directory,
registry records so far). -/
def processBlock (matcher : String → Option ExampleGroups)
    (version output_dir : String) (st : List String × List JObj)
    (ex : String) : Except String (List String × List JObj) :=
  match matcher ex with
  | none => Except.error ("Regex does not match example " ++ ex)
  | some g =>
    match write_test_files g version output_dir st.1 with
    | Except.error _ => Except.error ("Error writing files for example " ++ ex)
    | Except.ok fe => Except.ok (fe.1 :: st.1, st.2 ++ [fe.2])

/-- Process a list of already-scanned blocks in order, stopping at the first
error. -/
def processBlocks (matcher : String → Option ExampleGroups)
    (version output_dir : String) :
    List String → (List String × List JObj) →
    Except String (List String × List JObj)
  | [], st => Except.ok st
  | b :: bs, st =>
    match processBlock matcher version output_dir st b with
    | Except.error e => Except.error e
    | Except.ok st' => processBlocks matcher version output_dir bs st'

/-- The line scanner plus per-block processing of `extract_tests` (lines
96-115): `buf = None` outside a block; a line containing `<details>` opens a
block; while a block is open every line is buffered and a line containing
`</details>` closes and processes it.  A block still open at end of input is
discarded without error. -/
def extractGo (matcher : String → Option ExampleGroups)
    (version output_dir : String) :
    List String → Option (List String) → (List String × List JObj) →
    Except String (List String × List JObj)
  | [], _, st => Except.ok st
  | line :: rest, none, st =>
    if containsSub line "<details>" then
      extractGo matcher version output_dir rest (some [line]) st
    else extractGo matcher version output_dir rest none st
  | line :: rest, some b, st =>
    if containsSub line "</details>" then
      match processBlock matcher version output_dir st (String.join (b ++ [line])) with
      | Except.error e => Except.error e
      | Except.ok st' => extractGo matcher version output_dir rest none st'
    else extractGo matcher version output_dir rest (some (b ++ [line])) st

/-- The scanner alone: the list of closed blocks (joined text), in order. -/
def scanBlocksGo : List String → Option (List String) → List String
  | [], _ => []
  | line :: rest, none =>
    if containsSub line "<details>" then scanBlocksGo rest (some [line])
    else scanBlocksGo rest none
  | line :: rest, some b =>
    if containsSub line "</details>" then
      String.join (b ++ [line]) :: scanBlocksGo rest none
    else scanBlocksGo rest (some (b ++ [line]))

/-- The closed example blocks of a document. -/
def scanBlocks (lines : List String) : List String :=
  scanBlocksGo lines none

/-- `extract_tests` from `extract_tests.py` (lines 91-119), over the lines
of the input document: on success the returned record list is what is then
serialized to `test_config.json`; on error the exception propagates and no
registry file is written. -/
def extract_tests (matcher : String → Option ExampleGroups)
    (version output_dir : String) (lines : List String)
    (existing : List String) : Except String (List JObj) :=
  Except.map (fun st => st.2) (extractGo matcher version output_dir lines none (existing, []))

/-- Modelled from the spec (section 4.2), for comparison with the code's
`FILENAME_RE`: the filename grammar `<target-name>[_fail][_task].<ext>` in
the spec's words — the title decomposes into a target name, the optional
markers in that order, a literal dot and an extension. -/
def specTitleGrammar (s : String) : Prop :=
  ∃ (t e : String) (f k : Bool),
    s = t ++ (if f then "_fail" else "") ++ (if k then "_task" else "") ++ "." ++ e

/-! ### Helper lemmas -/

theorem JObj.get_set_self (d : JObj) (k : String) (v : JVal) :
    JObj.get (JObj.set d k v) k = some v := by
  induction d with
  | nil => simp [JObj.set, JObj.get]
  | cons kv rest ih =>
    obtain ⟨k', v'⟩ := kv
    by_cases h : k' = k
    · simp [JObj.set, JObj.get, h]
    · simp [JObj.set, JObj.get, h, ih]

theorem JObj.get_set_ne (d : JObj) (k k' : String) (v : JVal) (h : k ≠ k') :
    JObj.get (JObj.set d k' v) k = JObj.get d k := by
  induction d with
  | nil => simp [JObj.set, JObj.get, Ne.symm h]
  | cons kv rest ih =>
    obtain ⟨k'', v''⟩ := kv
    by_cases h2 : k'' = k'
    · subst h2
      simp [JObj.set, JObj.get, Ne.symm h]
    · simp [JObj.set, JObj.get, h2, ih]

theorem mem_splitSlash_no_slash :
    ∀ (cs : List Char), ∀ a ∈ splitSlash cs, '/' ∉ a := by
  intro cs
  induction cs with
  | nil =>
    intro a ha
    simp [splitSlash] at ha
    simp [ha]
  | cons c cs ih =>
    intro a ha
    by_cases hc : c = '/'
    · simp [splitSlash, hc] at ha
      rcases ha with h | h
      · simp [h]
      · exact ih a h
    · rw [splitSlash] at ha
      rw [if_neg hc] at ha
      cases e : splitSlash cs with
      | nil =>
        rw [e] at ha
        have ha2 : a = [c] := by simpa using ha
        simp [ha2, Ne.symm hc]
      | cons hd tl =>
        rw [e] at ha
        rcases List.mem_cons.mp ha with h | h
        · subst h
          intro hmem
          rcases List.mem_cons.mp hmem with h2 | h2
          · exact hc h2.symm
          · exact ih hd (by rw [e]; exact List.mem_cons_self hd tl) h2
        · exact ih a (by rw [e]; exact List.mem_cons_of_mem hd h)

theorem splitSlash_of_no_slash :
    ∀ (cs : List Char), '/' ∉ cs → splitSlash cs = [cs] := by
  intro cs
  induction cs with
  | nil => intro _; rfl
  | cons c cs ih =>
    intro h
    have hc : c ≠ '/' := fun hh => h (by simp [hh])
    have hcs : '/' ∉ cs := fun hh => h (List.mem_cons_of_mem c hh)
    rw [splitSlash, if_neg (fun hh => hc hh), ih hcs]

theorem pathNameL_idem (cs : List Char) : pathNameL (pathNameL cs) = pathNameL cs := by
  cases hlast :
      ((splitSlash cs).filter (fun a => a != ([] : List Char) && a != ['.'])).getLast? with
  | none =>
    have h1 : pathNameL cs = [] := by
      unfold pathNameL
      rw [hlast]
      rfl
    rw [h1]
    rfl
  | some a =>
    have h1 : pathNameL cs = a := by
      unfold pathNameL
      rw [hlast]
      rfl
    have hmem :
        a ∈ (splitSlash cs).filter (fun a => a != ([] : List Char) && a != ['.']) := by
      have hsome :
          a ∈ ((splitSlash cs).filter
            (fun a => a != ([] : List Char) && a != ['.'])).getLast? := by
        simp [Option.mem_def, hlast]
      obtain ⟨hnn, heq⟩ := List.mem_getLast?_eq_getLast hsome
      exact heq ▸ List.getLast_mem hnn
    rw [List.mem_filter] at hmem
    obtain ⟨hin, hcond⟩ := hmem
    have hne : a ≠ [] ∧ a ≠ ['.'] := by
      constructor <;> · intro hh; simp [hh] at hcond
    have hnos : '/' ∉ a := mem_splitSlash_no_slash cs a hin
    rw [h1]
    unfold pathNameL
    rw [splitSlash_of_no_slash a hnos]
    have hkeep : (a != ([] : List Char) && a != ['.']) = true := by
      simp [hne.1, hne.2]
    simp [List.filter, hkeep]

theorem pathName_idem (s : String) : pathName (pathName s) = pathName s := by
  unfold pathName
  exact congrArg String.mk (pathNameL_idem s.data)

theorem string_data_append (a b : String) : (a ++ b).data = a.data ++ b.data :=
  rfl

theorem extractGo_eq_processBlocks (matcher : String → Option ExampleGroups)
    (version output_dir : String) :
    ∀ (lines : List String) (buf : Option (List String))
      (st : List String × List JObj),
      extractGo matcher version output_dir lines buf st
        = processBlocks matcher version output_dir (scanBlocksGo lines buf) st := by
  intro lines
  induction lines with
  | nil =>
    intro buf st
    cases buf <;> rfl
  | cons line rest ih =>
    intro buf st
    cases buf with
    | none =>
      cases h : containsSub line "<details>" <;>
        simp [extractGo, scanBlocksGo, h, ih]
    | some b =>
      cases h : containsSub line "</details>" with
      | false => simp [extractGo, scanBlocksGo, h, ih]
      | true =>
        simp only [extractGo, scanBlocksGo, h, if_pos]
        cases hp : processBlock matcher version output_dir st (String.join (b ++ [line])) with
        | error e => simp [processBlocks, hp]
        | ok st' => simp [processBlocks, hp, ih]

theorem processBlocks_append_error (matcher : String → Option ExampleGroups)
    (version output_dir : String) :
    ∀ (bs1 : List String) (b : String) (bs2 : List String)
      (st st' : List String × List JObj) (e : String),
      processBlocks matcher version output_dir bs1 st = Except.ok st' →
      processBlock matcher version output_dir st' b = Except.error e →
      processBlocks matcher version output_dir (bs1 ++ b :: bs2) st = Except.error e := by
  intro bs1
  induction bs1 with
  | nil =>
    intro b bs2 st st' e h1 h2
    have hst : st = st' := by
      simpa [processBlocks] using h1
    subst hst
    simp [processBlocks, h2]
  | cons hd tl ih =>
    intro b bs2 st st' e h1 h2
    rw [processBlocks] at h1
    cases hp : processBlock matcher version output_dir st hd with
    | error e' => rw [hp] at h1; exact absurd h1 (by simp)
    | ok st1 =>
      rw [hp] at h1
      have := ih b bs2 st1 st' e h1 h2
      simp [processBlocks, hp, this]

@[simp] theorem get_setDefault_ne (d : JObj) (key k : String) (v : JVal)
    (h : key ≠ k) :
    JObj.get (setDefault d k v) key = JObj.get d key := by
  unfold setDefault
  split
  · rfl
  · exact JObj.get_set_ne d key k v h

@[simp] theorem get_promoteStr_ne (d : JObj) (key k : String) (dflt : JVal)
    (h : key ≠ k) :
    JObj.get (promoteStr d k dflt) key = JObj.get d key := by
  unfold promoteStr
  split
  · exact JObj.get_set_ne d key k dflt h
  · split
    · exact JObj.get_set_ne d key k _ h
    · rfl

@[simp] theorem get_setDefault_self (d : JObj) (k : String) (v : JVal) :
    JObj.get (setDefault d k v) k = some ((JObj.get d k).getD v) := by
  unfold setDefault JObj.hasKey
  cases hg : JObj.get d k <;> simp [hg, JObj.get_set_self]

@[simp] theorem get_promoteStr_self (d : JObj) (k : String) (dflt : JVal) :
    JObj.get (promoteStr d k dflt) k =
      match JObj.get d k with
      | none => some dflt
      | some (JVal.str s) => some (JVal.arr [JVal.str s])
      | some v => some v := by
  unfold promoteStr JObj.hasKey
  cases hg : JObj.get d k with
  | none => simp [hg, JObj.get_set_self]
  | some v => cases v <;> simp [hg, JObj.get_set_self]

attribute [simp] JObj.get_set_self JObj.get_set_ne

theorem extractGo_unclosed (matcher : String → Option ExampleGroups)
    (version output_dir : String) :
    ∀ (tail : List String) (b : List String) (st : List String × List JObj),
      (∀ l ∈ tail, containsSub l "</details>" = false) →
      extractGo matcher version output_dir tail (some b) st = Except.ok st := by
  intro tail
  induction tail with
  | nil => intro b st _; rfl
  | cons line rest ih =>
    intro b st h
    have h1 : containsSub line "</details>" = false := h line (List.mem_cons_self line rest)
    rw [extractGo, if_neg (by simp [h1])]
    exact ih (b ++ [line]) st (fun l hl => h l (List.mem_cons_of_mem line hl))

theorem normalizeVal_idem (v : JVal) : normalizeVal (normalizeVal v) = normalizeVal v := by
  cases v <;> simp [normalizeVal, pathName_idem]

/-! ### Claims -/

/-- Claim C1: for every test case with priority not "ignore" and
expected_failure (`fail`) true, the run comparators of the miniwdl and
cromwell runners return PASS exactly when the executor's return code is
non-zero, and a zero return code yields FAIL. -/
theorem run_expected_failure_pass_iff (fs : String → Bool) (cfg : RunConfig)
    (rc : Int) (parsed outs : Option JObj)
    (hp : cfg.priority ≠ "ignore") (hf : cfg.fail = true) :
    (runTestMiniwdl fs cfg rc parsed = Result.PASS ↔ rc ≠ 0)
    ∧ (runTestCromwell fs cfg rc outs = Result.PASS ↔ rc ≠ 0)
    ∧ (rc = 0 → runTestMiniwdl fs cfg rc parsed = Result.FAIL
        ∧ runTestCromwell fs cfg rc outs = Result.FAIL) := by
  have hpb : (cfg.priority == "ignore") = false := by simp [hp]
  by_cases hrc : rc = 0 <;>
    simp [runTestMiniwdl, runTestCromwell, hpb, hf, hrc]

/-- Witness for C1: a case with priority "required", fail = true and return
code 1 yields PASS from both runners. -/
theorem run_expected_failure_pass_iff_witness :
    runTestMiniwdl (fun _ => false) ⟨"required", true, JVal.str "*", [], [], []⟩
      1 none = Result.PASS
    ∧ runTestCromwell (fun _ => false) ⟨"required", true, JVal.str "*", [], [], []⟩
      1 none = Result.PASS := by
  have h := run_expected_failure_pass_iff (fun _ => false)
    ⟨"required", true, JVal.str "*", [], [], []⟩ 1 none none (by decide) rfl
  exact ⟨h.1.mpr (by decide), h.2.1.mpr (by decide)⟩

/-- Counterexample to claim C2 as stated: the normalizer does not expand a
string naming an existing directory into the sorted list of its files — it
only takes the final path component.  With a filesystem in which `outdir`
exists, the normalizer leaves the string `outdir` as is (no list is ever
produced), and the miniwdl comparator FAILs a case whose expected output is
`["a.txt", "b.txt"]` while the actual output is the directory path `outdir`
— the claim predicts PASS for a directory containing exactly those files. -/
theorem normalizer_no_directory_expansion_cex :
    get_filename_if_path (fun s => s == "outdir") (JVal.str "outdir")
      = JVal.str "outdir"
    ∧ runTestMiniwdl (fun s => s == "outdir")
        ⟨"required", false, JVal.str "*", [],
          [("files", JVal.arr [JVal.str "a.txt", JVal.str "b.txt"])], []⟩ 0
        (some [("files", JVal.str "outdir")]) = Result.FAIL :=
  ⟨rfl, rfl⟩

/-- Claim C2 as amended: during output comparison, an actual (or expected)
output value that is a string naming an existing path — file or directory —
is replaced by its final path component (`Path(val).name`), not by a
directory listing; a string that does not name an existing path, and any
non-string value (in particular a list), is left unchanged. -/
theorem normalizer_basename_amended (fs : String → Bool) (s : String) :
    (fs s = true →
      get_filename_if_path fs (JVal.str s) = JVal.str (pathName s))
    ∧ (fs s = false → get_filename_if_path fs (JVal.str s) = JVal.str s)
    ∧ (∀ xs, get_filename_if_path fs (JVal.arr xs) = JVal.arr xs) := by
  refine ⟨fun h => ?_, fun h => ?_, fun xs => rfl⟩
  · simp [get_filename_if_path, h]
  · simp [get_filename_if_path, h]

/-- Witness for the amended C2: an existing absolute path reduces to its
final component. -/
theorem normalizer_basename_amended_witness :
    get_filename_if_path (fun _ => true) (JVal.str "/abs/run123/result.txt")
      = JVal.str (pathName "/abs/run123/result.txt")
    ∧ pathName "/abs/run123/result.txt" = "result.txt" :=
  ⟨(normalizer_basename_amended (fun _ => true) "/abs/run123/result.txt").1 rfl, rfl⟩

/-- Counterexample to claim C5 as stated: a case with priority "ignore"
does not get the verdict IGNORE from either cited check path.  In the
miniwdl check path the priority rule is NOT applied first — when the check
tool reports success (return code 0) the verdict is PASS, not IGNORE — and
the sprocket check path produces no verdict at all on the same case: it
raises `NameError` (undefined `input_path`) before consulting anything. -/
theorem check_ignore_pass_cex :
    checkMiniwdl ⟨"ignore", false, JVal.str "*", [], [], []⟩ false false false 0
      = Result.PASS
    ∧ checkSprocket ⟨"ignore", false, JVal.str "*", [], [], []⟩ false false false
      = Except.error "NameError: name input_path is not defined" :=
  ⟨rfl, rfl⟩

/-- Claim C5 as amended: the miniwdl check path tests the tool's exit status
first — a zero return code yields PASS even for a case with priority
"ignore"; only when the check tool fails is the priority rule consulted, and
then a case with priority "ignore" yields IGNORE.  The sprocket check path
never reaches its (textually identical) decision tree: it raises `NameError`
on every case, so it returns no verdict whatsoever. -/
theorem check_order_amended (cfg : RunConfig)
    (strict no_warn deprecated_optional : Bool) (rc : Int) :
    (rc = 0 →
      checkMiniwdl cfg strict no_warn deprecated_optional rc = Result.PASS)
    ∧ (rc ≠ 0 → cfg.priority = "ignore" →
      checkMiniwdl cfg strict no_warn deprecated_optional rc = Result.IGNORE)
    ∧ (∀ r : Result,
      checkSprocket cfg strict no_warn deprecated_optional ≠ Except.ok r) := by
  refine ⟨fun h => ?_, fun h hp => ?_, fun r => ?_⟩
  · simp [checkMiniwdl, h]
  · have hb : (rc == 0) = false := by simp [h]
    simp [checkMiniwdl, hb, hp]
  · simp [checkSprocket]

/-- Witness for the amended C5: an ignored case yields IGNORE from the
miniwdl check when the tool fails (return code 3) and PASS when it succeeds,
and the sprocket check yields no verdict on it. -/
theorem check_order_amended_witness :
    checkMiniwdl ⟨"ignore", false, JVal.str "*", [], [], []⟩ false false false 3
      = Result.IGNORE
    ∧ checkMiniwdl ⟨"ignore", false, JVal.str "*", [], [], []⟩ false false false 0
      = Result.PASS
    ∧ checkSprocket ⟨"ignore", false, JVal.str "*", [], [], []⟩ false false false
      ≠ Except.ok Result.IGNORE := by
  refine ⟨?_, ?_, ?_⟩
  · exact (check_order_amended ⟨"ignore", false, JVal.str "*", [], [], []⟩
      false false false 3).2.1 (by decide) rfl
  · exact (check_order_amended ⟨"ignore", false, JVal.str "*", [], [], []⟩
      false false false 0).1 rfl
  · exact (check_order_amended ⟨"ignore", false, JVal.str "*", [], [], []⟩
      false false false 0).2.2 Result.IGNORE

/-- Claim C7: the per-value path normalization applied before comparison is
idempotent — for `get_filename_if_path` (miniwdl/cromwell/sprocket, over any
filesystem) and for `normalize_paths` (toil). -/
theorem normalize_idempotent :
    (∀ (fs : String → Bool) (v : JVal),
      get_filename_if_path fs (get_filename_if_path fs v)
        = get_filename_if_path fs v)
    ∧ (∀ d : List (String × JVal),
      normalize_paths (normalize_paths d) = normalize_paths d) := by
  constructor
  · intro fs v
    cases v with
    | str s =>
      by_cases hfs : fs s
      · simp only [get_filename_if_path, hfs, if_true]
        by_cases h2 : fs (pathName s) <;> simp [h2, pathName_idem]
      · simp [get_filename_if_path, hfs]
    | null => rfl
    | bool b => rfl
    | num n => rfl
    | arr a => rfl
    | obj o => rfl
  · intro d
    unfold normalize_paths
    rw [List.map_map]
    exact List.map_congr_left (fun kv _ => by
      simp [Function.comp, normalizeVal_idem])

/-- Claim C10: in the miniwdl check path, a case with fail = true and
priority not "ignore" never yields FAIL: a failing check yields WARN for
such a case, whatever the `no_warn` and `deprecated_optional` flags. -/
theorem check_expected_fail_never_fail (cfg : RunConfig)
    (strict no_warn deprecated_optional : Bool) (rc : Int)
    (hf : cfg.fail = true) (hp : cfg.priority ≠ "ignore") :
    checkMiniwdl cfg strict no_warn deprecated_optional rc ≠ Result.FAIL
    ∧ (rc ≠ 0 →
      checkMiniwdl cfg strict no_warn deprecated_optional rc = Result.WARN) := by
  have hpb : (cfg.priority == "ignore") = false := by simp [hp]
  by_cases hrc : rc = 0
  · simp [checkMiniwdl, hrc]
  · have hrcb : (rc == 0) = false := by simp [hrc]
    refine ⟨?_, fun _ => ?_⟩ <;>
      cases no_warn <;>
        cases hdep : (deprecated_optional && cfg.tags.contains "deprecated") <;>
          simp [checkMiniwdl, hrcb, hpb, hf, hdep]

/-- Witness for C10: with both flags unset, a failing check (return code 2)
on an expected-failure case yields WARN, not FAIL. -/
theorem check_expected_fail_never_fail_witness :
    checkMiniwdl ⟨"required", true, JVal.str "*", [], [], []⟩ false false false 2
      ≠ Result.FAIL
    ∧ checkMiniwdl ⟨"required", true, JVal.str "*", [], [], []⟩ false false false 2
      = Result.WARN := by
  have h := check_expected_fail_never_fail
    ⟨"required", true, JVal.str "*", [], [], []⟩ false false false 2 rfl (by decide)
  exact ⟨h.1, h.2 (by decide)⟩

/-- Counterexample to claim C3 as stated: an extracted test case whose
test-config section is absent gets `returnCodes = "*"` — a bare string
scalar, not a one-element list — in the produced registry record. -/
theorem returnCodes_scalar_default_cex :
    Except.map (fun r => JObj.get r.2 "returnCodes")
        (write_test_files ⟨some "t.wdl", "version 1.1", none, none, none⟩
          "1.1" "out" [])
      = Except.ok (some (JVal.str "*"))
    ∧ Except.map (fun r => Option.map JVal.isArr (JObj.get r.2 "returnCodes"))
        (write_test_files ⟨some "t.wdl", "version 1.1", none, none, none⟩
          "1.1" "out" [])
      = Except.ok (some false) :=
  ⟨rfl, rfl⟩

/-- Claim C3 as amended: `exclude_output`, `dependencies` and `tags` default
to the empty list when absent, and a single string supplied for any of the
four fields (`returnCodes` included) is promoted to the one-element list
`[value]`; but `returnCodes`, when absent, defaults to the bare scalar
string `"*"`, not to a list. -/
theorem collection_fields_normalization_amended (cfg0 : JObj) (t : String)
    (f k : Bool) (p : String) (i o : Option JVal) :
    (∀ key, key ∈ ["exclude_output", "dependencies", "tags"] →
      JObj.get cfg0 key = none →
      JObj.get (buildEntry cfg0 t f k p i o) key = some (JVal.arr []))
    ∧ (JObj.get cfg0 "returnCodes" = none →
      JObj.get (buildEntry cfg0 t f k p i o) "returnCodes" = some (JVal.str "*"))
    ∧ (∀ key s, key ∈ ["exclude_output", "returnCodes", "dependencies", "tags"] →
      JObj.get cfg0 key = some (JVal.str s) →
      JObj.get (buildEntry cfg0 t f k p i o) key = some (JVal.arr [JVal.str s])) := by
  refine ⟨?_, ?_, ?_⟩
  · intro key hk h
    simp only [List.mem_cons, List.not_mem_nil, or_false] at hk
    rcases hk with rfl | rfl | rfl <;> simp [buildEntry, h]
  · intro h
    simp [buildEntry, h]
  · intro key s hk h
    simp only [List.mem_cons, List.not_mem_nil, or_false] at hk
    rcases hk with rfl | rfl | rfl | rfl <;> simp [buildEntry, h]

/-- Witness for the amended C3: with no test-config section `returnCodes`
is the scalar `"*"` and `dependencies` is `[]`; a supplied string for
`tags` becomes a one-element list. -/
theorem collection_fields_normalization_amended_witness :
    JObj.get (buildEntry [] "t" false false "p" none none) "returnCodes"
      = some (JVal.str "*")
    ∧ JObj.get (buildEntry [] "t" false false "p" none none) "dependencies"
      = some (JVal.arr [])
    ∧ JObj.get (buildEntry [("tags", JVal.str "x")] "t" false false "p" none none)
        "tags" = some (JVal.arr [JVal.str "x"]) := by
  refine ⟨(collection_fields_normalization_amended [] "t" false false "p" none none).2.1 rfl,
    (collection_fields_normalization_amended [] "t" false false "p" none none).1
      "dependencies" (by decide) rfl,
    (collection_fields_normalization_amended [("tags", JVal.str "x")] "t" false false
      "p" none none).2.2 "tags" "x" (by decide) rfl⟩

/-- Counterexample to claim C4 as stated: the title `xywdl` does not
decompose into `<target-name>[_fail][_task].<ext>` (it contains no dot at
all), yet extraction accepts it without error — the unescaped `.` of
`FILENAME_RE` matches the `y` — and builds a case with target `x`. -/
theorem filename_grammar_accepts_nonconforming_cex :
    ¬ specTitleGrammar "xywdl"
    ∧ Except.map (fun r => r.1)
        (write_test_files ⟨some "xywdl", "version 1.1", none, none, none⟩
          "1.1" "out" [])
      = Except.ok "xywdl"
    ∧ Except.map (fun r => JObj.get r.2 "id")
        (write_test_files ⟨some "xywdl", "version 1.1", none, none, none⟩
          "1.1" "out" [])
      = Except.ok (some (JVal.str "x")) := by
  refine ⟨?_, rfl, rfl⟩
  rintro ⟨t, e, f, k, h⟩
  have hd : ('.' : Char) ∈ ("xywdl" : String).data := by
    rw [h]
    simp [string_data_append, List.mem_append]
  exact absurd hd (by decide)

/-- Claim C4 as amended: a title carrying both markers yields target `foo`,
`fail = true`, `type = "task"`, and a bare title yields `fail = false`,
`type = "workflow"` (absent explicit overrides); a title the filename
pattern does not match at all is a fatal extraction error — but, because the
dot of `FILENAME_RE` is unescaped and the match is a prefix match, the set
of accepted titles is those matched by the pattern, which is strictly larger
than the titles of the form `<target-name>[_fail][_task].<ext>`. -/
theorem filename_markers_amended :
    filenameMatch "foo_fail_task.wdl" = some ("foo", true, true)
    ∧ filenameMatch "foo.wdl" = some ("foo", false, false)
    ∧ (∀ (cfg0 : JObj) (t : String) (f k : Bool) (p : String) (i o : Option JVal),
        JObj.get cfg0 "fail" = none → JObj.get cfg0 "type" = none →
        JObj.get (buildEntry cfg0 t f k p i o) "fail" = some (JVal.bool f)
        ∧ JObj.get (buildEntry cfg0 t f k p i o) "type"
          = some (JVal.str (if k then "task" else "workflow")))
    ∧ (∀ (title wdl : String) (i o : Option JVal) (c : Option JObj)
        (version output_dir : String) (existing : List String),
        filenameMatch title = none →
        write_test_files ⟨some title, wdl, i, o, c⟩ version output_dir existing
          = Except.error ("Invalid file name: " ++ title)) := by
  refine ⟨rfl, rfl, ?_, ?_⟩
  · intro cfg0 t f k p i o h1 h2
    constructor <;> simp [buildEntry, h1, h2]
  · intro title wdl i o c version output_dir existing h
    simp [write_test_files, h]

/-- Witness for the amended C4: the markers of `foo_fail_task.wdl` set
`fail = true` in the built record, and the unmatchable title `nope` is a
fatal error. -/
theorem filename_markers_amended_witness :
    JObj.get (buildEntry [] "foo" true true "out/foo_fail_task.wdl" none none)
        "fail" = some (JVal.bool true)
    ∧ write_test_files ⟨some "nope", "version 1.1", none, none, none⟩
        "1.1" "out" []
      = Except.error ("Invalid file name: " ++ "nope") := by
  refine ⟨(filename_markers_amended.2.2.1 [] "foo" true true
    "out/foo_fail_task.wdl" none none rfl rfl).1, ?_⟩
  exact filename_markers_amended.2.2.2 "nope" "version 1.1" none none none
    "1.1" "out" [] rfl

/-- Claim C6: extraction is fail-fast.  The extraction run is the
block-by-block processing of the scanner's closed blocks, and whenever any
single block fails to process (regex mismatch or any `write_test_files`
error: bad filename, missing/mismatched version, duplicate file), the whole
run returns that error — the registry list, which is only serialized on
success, is never produced, whatever blocks follow. -/
theorem extract_fail_fast :
    (∀ (matcher : String → Option ExampleGroups) (version output_dir : String)
       (lines existing : List String),
       extract_tests matcher version output_dir lines existing
         = Except.map (fun st => st.2)
             (processBlocks matcher version output_dir (scanBlocks lines)
               (existing, [])))
    ∧ (∀ (matcher : String → Option ExampleGroups) (version output_dir : String)
       (bs1 : List String) (b : String) (bs2 : List String)
       (st st' : List String × List JObj) (e : String),
       processBlocks matcher version output_dir bs1 st = Except.ok st' →
       processBlock matcher version output_dir st' b = Except.error e →
       processBlocks matcher version output_dir (bs1 ++ b :: bs2) st
         = Except.error e) := by
  constructor
  · intro matcher version output_dir lines existing
    unfold extract_tests scanBlocks
    rw [extractGo_eq_processBlocks]
  · exact fun m v od => processBlocks_append_error m v od

/-- Witness for C6: with a matcher rejecting everything, a single block
aborts the run with the regex error. -/
theorem extract_fail_fast_witness :
    processBlocks (fun _ => none) "1.1" "out" ([] ++ "x" :: []) ([], [])
      = Except.error ("Regex does not match example " ++ "x")
    ∧ extract_tests (fun _ => none) "1.1" "out" ["<details>x</details>"] []
      = Except.map (fun st => st.2)
          (processBlocks (fun _ => none) "1.1" "out"
            (scanBlocks ["<details>x</details>"]) ([], [])) := by
  refine ⟨?_, extract_fail_fast.1 (fun _ => none) "1.1" "out"
    ["<details>x</details>"] []⟩
  exact extract_fail_fast.2 (fun _ => none) "1.1" "out" [] "x" [] ([], []) ([], [])
    ("Regex does not match example " ++ "x") rfl rfl

/-- Claim C8: an opening delimiter line that starts a block which is never
closed before end of input is silently discarded — from any scanner state
with no open block, the run completes with `Except.ok` and the state
(registry records included) unchanged: no error, no extra test case. -/
theorem unclosed_block_dropped (matcher : String → Option ExampleGroups)
    (version output_dir : String) (openLine : String) (tail : List String)
    (st : List String × List JObj)
    (hopen : containsSub openLine "<details>" = true)
    (hnoclose : ∀ l ∈ openLine :: tail, containsSub l "</details>" = false) :
    extractGo matcher version output_dir (openLine :: tail) none st
      = Except.ok st := by
  have h1 : extractGo matcher version output_dir (openLine :: tail) none st
      = extractGo matcher version output_dir tail (some [openLine]) st := by
    simp [extractGo, hopen]
  rw [h1]
  exact extractGo_unclosed matcher version output_dir tail [openLine] st
    (fun l hl => hnoclose l (List.mem_cons_of_mem openLine hl))

/-- Witness for C8: a document whose only block is opened and never closed
extracts successfully and contributes nothing. -/
theorem unclosed_block_dropped_witness :
    extractGo (fun _ => none) "1.1" "out" ["<details>", "x"] none ([], [])
      = Except.ok ([], []) :=
  unclosed_block_dropped (fun _ => none) "1.1" "out" "<details>" ["x"] ([], [])
    (by decide) (by decide)

/-- Counterexample to claim C9 as stated: `id` and `path` are not the only
fields the builder overwrites — a test-config-supplied `input` value (here
the number 5) is also discarded, replaced by the example's input section
(absent, hence `{}`), so it is not true that for every other field an
explicit test-config value wins. -/
theorem input_field_overwritten_cex :
    Except.map (fun r => (JObj.get r.2 "input", JObj.get r.2 "id"))
        (write_test_files
          ⟨some "t.wdl", "version 1.1", none, none,
            some [("input", JVal.num 5), ("id", JVal.str "other")]⟩
          "1.1" "out" [])
      = Except.ok (some (JVal.obj []), some (JVal.str "t")) :=
  rfl

/-- Claim C9 as amended: the builder unconditionally sets `id` to the
filename-derived target and `path` to the written file's path (and likewise
overwrites `input` and `output` from the example's input/output sections),
while for the eight remaining fields an explicit test-config value wins over
the computed default — kept exactly for `type`, `target`, `priority` and
`fail`, and kept up to single-string promotion for `exclude_output`,
`returnCodes`, `dependencies` and `tags`. -/
theorem id_path_overwrite_amended (cfg0 : JObj) (t : String) (f k : Bool)
    (p : String) (i o : Option JVal) :
    JObj.get (buildEntry cfg0 t f k p i o) "id" = some (JVal.str t)
    ∧ JObj.get (buildEntry cfg0 t f k p i o) "path" = some (JVal.str p)
    ∧ JObj.get (buildEntry cfg0 t f k p i o) "input" = some (i.getD (JVal.obj []))
    ∧ JObj.get (buildEntry cfg0 t f k p i o) "output" = some (o.getD (JVal.obj []))
    ∧ (∀ key v, key ∈ ["type", "target", "priority", "fail"] →
        JObj.get cfg0 key = some v →
        JObj.get (buildEntry cfg0 t f k p i o) key = some v)
    ∧ (∀ key s, key ∈ ["exclude_output", "returnCodes", "dependencies", "tags"] →
        JObj.get cfg0 key = some (JVal.str s) →
        JObj.get (buildEntry cfg0 t f k p i o) key
          = some (JVal.arr [JVal.str s]))
    ∧ (∀ key v, key ∈ ["exclude_output", "returnCodes", "dependencies", "tags"] →
        JObj.get cfg0 key = some v → JVal.isStr v = false →
        JObj.get (buildEntry cfg0 t f k p i o) key = some v) := by
  refine ⟨by simp [buildEntry], by simp [buildEntry], by simp [buildEntry],
    by simp [buildEntry], ?_, ?_, ?_⟩
  · intro key v hk h
    simp only [List.mem_cons, List.not_mem_nil, or_false] at hk
    rcases hk with rfl | rfl | rfl | rfl <;> simp [buildEntry, h]
  · intro key s hk h
    simp only [List.mem_cons, List.not_mem_nil, or_false] at hk
    rcases hk with rfl | rfl | rfl | rfl <;> simp [buildEntry, h]
  · intro key v hk h hv
    simp only [List.mem_cons, List.not_mem_nil, or_false] at hk
    rcases hk with rfl | rfl | rfl | rfl <;>
      cases v <;> simp_all [buildEntry, JVal.isStr]

/-- Witness for the amended C9: with an explicit `priority` in the
test-config section, the supplied value survives while a supplied `id` is
overwritten by the target name. -/
theorem id_path_overwrite_amended_witness :
    JObj.get (buildEntry [("priority", JVal.str "optional"), ("id", JVal.str "other")]
        "t" false false "p" none none) "priority" = some (JVal.str "optional")
    ∧ JObj.get (buildEntry [("priority", JVal.str "optional"), ("id", JVal.str "other")]
        "t" false false "p" none none) "id" = some (JVal.str "t") := by
  refine ⟨(id_path_overwrite_amended
      [("priority", JVal.str "optional"), ("id", JVal.str "other")]
      "t" false false "p" none none).2.2.2.2.1 "priority" (JVal.str "optional")
      (by decide) rfl,
    (id_path_overwrite_amended
      [("priority", JVal.str "optional"), ("id", JVal.str "other")]
      "t" false false "p" none none).1⟩
